import Mathlib

/-!
Verification of the storage-pool management backend.

Shallow embedding of the core components of the codebase:
the stderr error classifier (backend/exceptions.py), the zpool status
parser (backend/services/zpool.py), the command runner and its admission
semaphore (backend/services/cmd.py), the WebSocket stream registry
(backend/ws.py), and the pool destroy orchestration
(backend/routes/pools.py).  Text is modelled as List Char; Python
strings are embedded with their exact trimming and splitting semantics.
-/

set_option maxHeartbeats 1000000

namespace ZfsWeb

/-- Characters treated as whitespace by Python str.strip / str.split
(ASCII subset, which is all the code ever meets). -/
def isPySpace (c : Char) : Bool :=
  c = ' ' || c = '\t' || c = '\n' || c = '\r' || c = '\x0b' || c = '\x0c'

/-- ASCII lower-casing, the fragment of IGNORECASE matching relevant to
the patterns (every pattern is plain lower-case ASCII). -/
def asciiLower (c : Char) : Char :=
  if 'A' ≤ c ∧ c ≤ 'Z' then Char.ofNat (c.toNat + 32) else c

def lowerL (cs : List Char) : List Char := cs.map asciiLower

/-- Python str.strip(): drop leading and trailing whitespace. -/
def pyStrip (cs : List Char) : List Char :=
  ((cs.dropWhile isPySpace).reverse.dropWhile isPySpace).reverse

/-- The text before the first newline: applied to the stripped stderr
this is Python strip-then-split-on-newline, first piece. -/
def firstLineOf (cs : List Char) : List Char :=
  cs.takeWhile (fun c => c ≠ '\n')

/-- Substring test: does pat occur contiguously inside cs
(re.search of a literal pattern). -/
def containsSub (pat : List Char) : List Char → Bool
  | [] => pat.isEmpty
  | c :: t => pat.isPrefixOf (c :: t) || containsSub pat t

/-- After the literal "snapshot ", look for a gap of at least one
non-newline character followed by the literal " has holds"
(the regex dot does not match a newline). -/
def gapSearch : List Char → Bool
  | [] => false
  | c :: rest =>
    if c = '\n' then false
    else " has holds".data.isPrefixOf rest || gapSearch rest

/-- The re.search of the pattern snapshot-dot-plus-has-holds. -/
def searchHasHolds : List Char → Bool
  | [] => false
  | c :: t =>
    ("snapshot ".data.isPrefixOf (c :: t) && gapSearch ((c :: t).drop 9))
      || searchHasHolds t

/-- Exception classes of backend/exceptions.py. -/
inductive ExcClass where
  | notFound
  | alreadyExists
  | busy
  | permission
  | invalidArgument
  | hasHolds
  | hasDependents
  | generic
deriving DecidableEq, Repr

/-- HTTP status code carried by each exception class. -/
def ExcClass.statusCode : ExcClass → Nat
  | .notFound => 404
  | .alreadyExists => 409
  | .busy => 409
  | .permission => 403
  | .invalidArgument => 400
  | .hasHolds => 409
  | .hasDependents => 409
  | .generic => 500

/-- The value content of a constructed ZFSError instance. -/
structure ZFSErrorVal where
  kind : ExcClass
  message : List Char
  stderr : List Char
  returncode : Int
deriving DecidableEq, Repr

/-- The _ERROR_PATTERNS table of backend/exceptions.py, in source order.  Each
entry pairs a matcher (applied to the lower-cased stderr) with the
exception class it selects. -/
def ERROR_PATTERNS : List ((List Char → Bool) × ExcClass) :=
  [ (containsSub "dataset does not exist".data, .notFound),
    (containsSub "no such pool".data, .notFound),
    (containsSub "could not find".data, .notFound),
    (containsSub "does not exist".data, .notFound),
    (containsSub "already exists".data, .alreadyExists),
    (containsSub "dataset is busy".data, .busy),
    (containsSub "is busy".data, .busy),
    (containsSub "has dependent clones".data, .hasDependents),
    (containsSub "has children".data, .hasDependents),
    (searchHasHolds, .hasHolds),
    (containsSub "tag already exists".data, .alreadyExists),
    (containsSub "permission denied".data, .permission),
    (containsSub "operation not permitted".data, .permission),
    (containsSub "invalid property".data, .invalidArgument),
    (containsSub "bad property value".data, .invalidArgument),
    (containsSub "invalid vdev specification".data, .invalidArgument),
    (containsSub "invalid option".data, .invalidArgument) ]

/-- First pattern (in list order) matching the lower-cased stderr. -/
def findMatch (low : List Char) : Option ExcClass :=
  (ERROR_PATTERNS.find? (fun pe => pe.1 low)).map (·.2)

/-- The parse_zfs_error function of backend/exceptions.py. -/
def parse_zfs_error (stderr : List Char) (returncode : Int) : ZFSErrorVal :=
  match findMatch (lowerL stderr) with
  | some cls =>
      { kind := cls
        message := firstLineOf (pyStrip stderr)
        stderr := stderr
        returncode := returncode }
  | none =>
      { kind := .generic
        message :=
          if pyStrip stderr = [] then "Unknown ZFS error".data
          else firstLineOf (pyStrip stderr)
        stderr := stderr
        returncode := returncode }

/-! ## Device tree parser (services/zpool.py, _parse_config_lines) -/

/-- Python str.split() with no argument: split on whitespace runs,
discarding empty tokens.  cur accumulates the current token reversed. -/
def pySplitAux : List Char → List Char → List String → List String
  | [], cur, acc =>
      if cur.isEmpty then acc else acc ++ [String.mk cur.reverse]
  | c :: t, cur, acc =>
      if isPySpace c then
        if cur.isEmpty then pySplitAux t [] acc
        else pySplitAux t [] (acc ++ [String.mk cur.reverse])
      else pySplitAux t (c :: cur) acc

def pySplit (cs : List Char) : List String := pySplitAux cs [] []

/-- One node of the device tree.  The Python code builds each node as a
dict that always carries all six keys, children included, so a structure
with a children field is the exact shape of every node the code emits. -/
structure Device where
  name : String
  state : String
  read_errors : String
  write_errors : String
  checksum_errors : String
  children : List Device
deriving Repr

/-- Structural equality on devices (the derived instance does not handle
the nested List recursion, so it is spelled out). -/
def Device.beq : Device → Device → Bool
  | ⟨n, s, r, w, c, ch⟩, ⟨n', s', r', w', c', ch'⟩ =>
    n = n' && s = s' && r = r' && w = w' && c = c' && beqList ch ch'
where beqList : List Device → List Device → Bool
  | [], [] => true
  | x :: xs, y :: ys => Device.beq x y && beqList xs ys
  | _, _ => false

instance : BEq Device := ⟨Device.beq⟩

/-- The re.match of whitespace-star NAME whitespace-plus STATE against the
line (the header row discarded by _parse_config_lines). -/
def isConfigHeader (cs : List Char) : Bool :=
  let r := cs.dropWhile isPySpace
  if "NAME".data.isPrefixOf r then
    let r2 := r.drop 4
    (!(r2.takeWhile isPySpace).isEmpty) && "STATE".data.isPrefixOf (r2.dropWhile isPySpace)
  else false

/-- Build a device from the whitespace-split fields of a config line:
positional mapping with the exact defaults of the source
(parts[i] if len(parts) > i else the fallback). -/
def mkDevice (parts : List String) : Device :=
  { name := parts.getD 0 ""
    state := parts.getD 1 ""
    read_errors := parts.getD 2 "0"
    write_errors := parts.getD 3 "0"
    checksum_errors := parts.getD 4 "0"
    children := [] }

/-- The pop loop of _parse_config_lines.  The Python code appends every
device into its parent dict at push time and lets later mutations of the
child flow through aliasing; in this pure embedding the attachment is
performed when an entry leaves the stack instead (on pop, a finished
subtree is appended to the children of the entry below it, or to the
top-level list when the stack empties), which yields the same final
tree.  The stack is kept most-recent-first. -/
def popGe (indent : Nat) : List (Nat × Device) → List Device → List (Nat × Device) × List Device
  | [], acc => ([], acc)
  | (j, d) :: rest, acc =>
    if indent ≤ j then
      match rest with
      | (k, p) :: r2 =>
          popGe indent ((k, { p with children := p.children ++ [d] }) :: r2) acc
      | [] => popGe indent [] (acc ++ [d])
    else ((j, d) :: rest, acc)
termination_by stack _ => stack.length

/-- Leading-whitespace width of a config line: the length of the line
minus the length of its lstrip. -/
def lineIndent (line : List Char) : Nat :=
  line.length - (line.dropWhile isPySpace).length

/-- The device built from a config line: whitespace-split fields of the
lstripped line, mapped positionally. -/
def lineDevice (line : List Char) : Device :=
  mkDevice (pySplit (line.dropWhile isPySpace))

/-- Process one data line: measure indentation, split fields, pop the
stack down to the first strictly shallower entry, push the new node. -/
def configStep (st : List (Nat × Device) × List Device) (line : List Char) :
    List (Nat × Device) × List Device :=
  ((lineIndent line, lineDevice line) :: (popGe (lineIndent line) st.1 st.2).1,
   (popGe (lineIndent line) st.1 st.2).2)

/-- The _parse_config_lines function of services/zpool.py. -/
def parse_config_lines (lines : List (List Char)) : List Device :=
  let dataLines := lines.filter (fun l => !isConfigHeader l && !(pyStrip l).isEmpty)
  let st := dataLines.foldl configStep ([], [])
  (popGe 0 st.1 st.2).2

/-! ### Claim-side transcription of the device-tree parser

The definitions below follow the words of the (amended) claim rather
than the source: fields are mapped positionally with missing error
counters defaulting to the string zero and a missing state defaulting to
the empty string; the node is attached to the most recent stack node
whose indentation is strictly less than that of the line, after popping
every entry with indentation greater than or equal to it; empty-stack
lines become top-level siblings. -/

/-- Collapse a run of popped stack entries (most recent first) into one
finished subtree: each entry becomes the last child of the entry below
it. -/
def collapseRun (d : Device) (ds : List Device) : Device :=
  ds.foldl (fun child parent => { parent with children := parent.children ++ [child] }) d

/-- One step of the claim-side parser, using span-style popping: the
run of stack entries with indentation at least that of the line is
collapsed into one finished subtree and attached to the first entry
below the run (necessarily the most recent entry with strictly smaller
indentation) or to the top level when no such entry remains; the new
node is then pushed. -/
def configClaimStep (st : List (Nat × Device) × List Device) (line : List Char) :
    List (Nat × Device) × List Device :=
  match st.1.takeWhile (fun e => lineIndent line ≤ e.1),
      st.1.dropWhile (fun e => lineIndent line ≤ e.1) with
  | [], _ => ((lineIndent line, lineDevice line) :: st.1, st.2)
  | p :: ps, (k, q) :: kr =>
      ((lineIndent line, lineDevice line)
          :: (k, { q with children := q.children ++ [collapseRun p.2 (ps.map (·.2))] }) :: kr,
       st.2)
  | p :: ps, [] =>
      ([(lineIndent line, lineDevice line)], st.2 ++ [collapseRun p.2 (ps.map (·.2))])

/-- The claim-side parser: same filtering, span-style attachment, and a
final flush that folds the remaining spine into the top-level list. -/
def configClaimParse (lines : List (List Char)) : List Device :=
  let dataLines := lines.filter (fun l => !isConfigHeader l && !(pyStrip l).isEmpty)
  let st := dataLines.foldl configClaimStep ([], [])
  match st.1 with
  | [] => st.2
  | p :: ps => st.2 ++ [collapseRun p.2 (ps.map (·.2))]

/-- Span-style description of one pop phase: the entries with
indentation at least the incoming one are collapsed into one finished
subtree and attached below them (or to the top level). -/
def popSpec (indent : Nat) (stack : List (Nat × Device)) (acc : List Device) :
    List (Nat × Device) × List Device :=
  match stack.takeWhile (fun e => indent ≤ e.1), stack.dropWhile (fun e => indent ≤ e.1) with
  | [], _ => (stack, acc)
  | p :: ps, (k, q) :: kr =>
      ((k, { q with children := q.children ++ [collapseRun p.2 (ps.map (·.2))] }) :: kr, acc)
  | p :: ps, [] => ([], acc ++ [collapseRun p.2 (ps.map (·.2))])

/-! ## Status output parser (services/zpool.py, parse_status_output) -/

/-- Python raw.split of the newline separator: always at least one
piece, empty input giving one empty piece. -/
def splitNl : List Char → List (List Char)
  | [] => [[]]
  | c :: t =>
    let r := splitNl t
    if c = '\n' then [] :: r
    else
      match r with
      | h :: t' => (c :: h) :: t'
      | [] => [[c]]

/-- Parser section state (the section variable of parse_status_output). -/
inductive Sect where
  | nosec
  | statusSec
  | actionSec
  | scanSec
  | configSec
  | errorsSec
deriving DecidableEq, Repr

/-- Accumulator threaded through the line loop of parse_status_output. -/
structure StatusAcc where
  state : List Char
  status : List Char
  action : List Char
  scan : List Char
  errors : List Char
  sect : Sect
  configLines : List (List Char)
deriving Repr

def statusInit : StatusAcc := ⟨[], [], [], [], [], .nosec, []⟩

/-- One iteration of the line loop of parse_status_output: the ordered
startswith cascade, then the continuation branches.  Every header
prefix has length 7, and Python split-on-first-colon of a line starting
with such a prefix returns exactly the text after position 7. -/
def statusStep (st : StatusAcc) (line : List Char) : StatusAcc :=
  let stripped := pyStrip line
  if "  pool:".data.isPrefixOf line then st
  else if " state:".data.isPrefixOf line then
    { st with state := pyStrip (line.drop 7), sect := .nosec }
  else if "status:".data.isPrefixOf line then
    { st with status := pyStrip (line.drop 7), sect := .statusSec }
  else if "action:".data.isPrefixOf line then
    { st with action := pyStrip (line.drop 7), sect := .actionSec }
  else if "  scan:".data.isPrefixOf line then
    { st with scan := pyStrip (line.drop 7), sect := .scanSec }
  else if "config:".data.isPrefixOf line then
    { st with sect := .configSec }
  else if "errors:".data.isPrefixOf line then
    { st with errors := pyStrip (line.drop 7), sect := .errorsSec }
  else if st.sect = .statusSec ∧ ¬stripped.isEmpty then
    { st with status := st.status ++ ' ' :: stripped }
  else if st.sect = .actionSec ∧ ¬stripped.isEmpty then
    { st with action := st.action ++ ' ' :: stripped }
  else if st.sect = .scanSec ∧ ¬stripped.isEmpty then
    { st with scan := st.scan ++ ' ' :: stripped }
  else if st.sect = .configSec ∧ ¬stripped.isEmpty then
    { st with configLines := st.configLines ++ [line] }
  else if st.sect = .errorsSec ∧ ¬stripped.isEmpty then
    { st with errors := st.errors ++ ' ' :: stripped }
  else st

/-- The structured result of parse_status_output. -/
structure StatusResult where
  state : List Char
  status : List Char
  action : List Char
  scan : List Char
  errors : List Char
  config : List Device
deriving Repr

/-- The parse_status_output function of services/zpool.py. -/
def parse_status_output (raw : List Char) : StatusResult :=
  let st := (splitNl raw).foldl statusStep statusInit
  ⟨st.state, st.status, st.action, st.scan, st.errors, parse_config_lines st.configLines⟩

/-- Does the line match any of the seven recognized header prefixes
(the pool header, which is discarded, or a section label)? -/
def isHeaderLine (line : List Char) : Bool :=
  "  pool:".data.isPrefixOf line || " state:".data.isPrefixOf line ||
  "status:".data.isPrefixOf line || "action:".data.isPrefixOf line ||
  "  scan:".data.isPrefixOf line || "config:".data.isPrefixOf line ||
  "errors:".data.isPrefixOf line

/-- Claim-side description of a continuation step: the trimmed text of
the line is appended to the field of the current section, preceded by a
single space, and nothing else changes. -/
def appendCont (st : StatusAcc) (line : List Char) : StatusAcc :=
  match st.sect with
  | .statusSec => { st with status := st.status ++ ' ' :: pyStrip line }
  | .actionSec => { st with action := st.action ++ ' ' :: pyStrip line }
  | .scanSec => { st with scan := st.scan ++ ' ' :: pyStrip line }
  | .errorsSec => { st with errors := st.errors ++ ' ' :: pyStrip line }
  | _ => st

/-! ## Stream registry (backend/ws.py) and iostat process tracking
(services/zpool.py) -/

/-- The MAX_HISTORY constant of backend/ws.py. -/
def MAX_HISTORY : Nat := 300

/-- A collections.deque with a maxlen: appending past capacity drops the
oldest (leftmost) entry. -/
def dequeAppend {α : Type} (maxlen : Nat) (buf : List α) (x : α) : List α :=
  let b := buf ++ [x]
  if maxlen < b.length then b.drop (b.length - maxlen) else b

/-- Contents of the per-pool deque after appending a sequence of samples
to an initially absent buffer (the ws_iostat loop creates the deque on
first use and appends every streamed sample). -/
def historyAfter {α : Type} (samples : List α) : List α :=
  samples.foldl (dequeAppend MAX_HISTORY) []

/-- The process-wide mutable registry of backend/ws.py and
services/zpool.py: the being-destroyed set, the per-pool WebSocket set,
the per-pool tracked iostat subprocess set, and the per-pool history
buffer.  Pools key association lists; members are abstract tokens. -/
structure Registry where
  destroying : List String
  activeWs : List (String × List Nat)
  iostatProcs : List (String × List Nat)
  history : List (String × List Nat)
deriving DecidableEq, Repr

/-- Python set.add. -/
def insertSet (x : String) (s : List String) : List String :=
  if x ∈ s then s else s ++ [x]

/-- Python dict.pop(key, default): the mapping with the key removed. -/
def assocPop (k : String) (m : List (String × List Nat)) : List (String × List Nat) :=
  m.filter (fun e => e.1 ≠ k)

/-- The get_iostat_history function of backend/ws.py. -/
def get_iostat_history (pool : String) (reg : Registry) : List Nat :=
  ((reg.history.find? (fun e => e.1 = pool)).map (·.2)).getD []

/-- The unmark_pool_destroying function of backend/ws.py.  No call site exists
anywhere in the codebase. -/
def unmark_pool_destroying (pool : String) (reg : Registry) : Registry :=
  { reg with destroying := reg.destroying.filter (fun x => x ≠ pool) }

/-- The stop_pool_streams function of backend/ws.py composed with the
kill_iostat_procs call it makes into services/zpool.py: mark the pool
as being destroyed, drop its WebSocket set, drop its tracked
subprocess set.  The history buffer is not touched. -/
def stop_pool_streams (pool : String) (reg : Registry) : Registry :=
  { destroying := insertSet pool reg.destroying
    activeWs := assocPop pool reg.activeWs
    iostatProcs := assocPop pool reg.iostatProcs
    history := reg.history }

/-! ## Destroy orchestration (routes/pools.py, destroy_pool) -/

/-- Observable trace of the retry loop: how many times the destructive
command ran, the backoff sleeps taken before retries (in seconds), and
the final outcome (none is success; some e re-raises the last
failure). -/
structure DestroyOutcome (ε : Type) where
  invocations : Nat
  delays : List Nat
  result : Option ε
deriving DecidableEq, Repr

/-- The attempt loop of destroy_pool: for attempt in range(3), sleeping
attempt times three seconds before every attempt but the first, then
invoking the destructive command; success breaks out with last_err
cleared, failure records the error and continues.  f gives the outcome
of the attempt with each index (none is success). -/
def destroyGo {ε : Type} (f : Nat → Option ε) :
    Nat → Option ε → List Nat → Nat → DestroyOutcome ε
  | i, lastErr, delays, 0 => ⟨i, delays, lastErr⟩
  | i, _lastErr, delays, fuel + 1 =>
    let delays := if 0 < i then delays ++ [i * 3] else delays
    match f i with
    | none => ⟨i + 1, delays, none⟩
    | some e => destroyGo f (i + 1) (some e) delays fuel

/-- The three-attempt retry loop of destroy_pool. -/
def destroyAttemptLoop {ε : Type} (f : Nat → Option ε) : DestroyOutcome ε :=
  destroyGo f 0 none [] 3

/-- The destroy_pool route of routes/pools.py, restricted to its effect on the
registry and the outcome of the retries.  Steps 2 through 6 (pkill,
fuser, unshare, unmount, export, re-import) act only on external
processes; each is wrapped in try/except and its outcome, supplied here
as the cleanup argument, is swallowed without altering registry state
or control flow.  On success the function returns without ever calling
unmark_pool_destroying and without clearing the history buffer. -/
def destroy_pool_route {ε : Type} (pool : String) (reg : Registry)
    (cleanup : List (Option ε)) (f : Nat → Option ε) : DestroyOutcome ε × Registry :=
  let reg1 := stop_pool_streams pool reg
  let _ignored := cleanup
  (destroyAttemptLoop f, reg1)

/-! ## Command runner (services/cmd.py, run_cmd) -/

/-- The value returned by run_cmd: (stdout, stderr, returncode). -/
structure CommandResult where
  stdout : String
  stderr : String
  returncode : Int
deriving DecidableEq, Repr

/-- Outcome of create_subprocess_exec: either the binary is missing
(FileNotFoundError) or the process runs and communicate() returns its
output and exit code. -/
inductive Spawn where
  | notFound
  | completed (stdout stderr : String) (rc : Int)

/-- A Python exception escaping run_cmd (never constructed: the
embedding shows every path returns a value). -/
inductive PyExc where
  | exc

/-- The run_cmd function of services/cmd.py (value behaviour; the semaphore is
modelled separately as a transition system).  The FileNotFoundError
branch returns a synthetic result instead of raising. -/
def runCmd (cmd : List String) (sp : Spawn) : Except PyExc CommandResult :=
  match sp with
  | .notFound =>
      .ok ⟨"", (cmd.head?.getD "(empty)") ++ ": command not found", 127⟩
  | .completed o e rc => .ok ⟨o, e, rc⟩

/-! ## Admission semaphore (services/cmd.py) — transition system

Counter abstraction of the event loop: each counter counts coroutines
at one control point of run_cmd, plus a counter of streaming
subprocesses (iostat_stream / events_stream, which never touch
_zfs_semaphore).  The semaphore holds 4 slots; a slot is held from
acquire until the async-with block exits, across the spawn, the wait
for process exit, and the FileNotFoundError early return. -/
structure ExecSt where
  acqPre : Nat
  running : Nat
  acqPost : Nat
  streams : Nat
deriving DecidableEq, Repr

/-- Interleaving steps of the command layer.  acquire is guarded by the
semaphore (held slots below 4); the streaming transitions carry no
guard on the semaphore and leave every run_cmd counter unchanged. -/
inductive ExecStep : ExecSt → ExecSt → Prop where
  | acquire (s : ExecSt) (h : s.acqPre + s.running + s.acqPost < 4) :
      ExecStep s { s with acqPre := s.acqPre + 1 }
  | spawnOk (s : ExecSt) (h : 0 < s.acqPre) :
      ExecStep s { s with acqPre := s.acqPre - 1, running := s.running + 1 }
  | spawnNotFound (s : ExecSt) (h : 0 < s.acqPre) :
      ExecStep s { s with acqPre := s.acqPre - 1, acqPost := s.acqPost + 1 }
  | procExit (s : ExecSt) (h : 0 < s.running) :
      ExecStep s { s with running := s.running - 1, acqPost := s.acqPost + 1 }
  | release (s : ExecSt) (h : 0 < s.acqPost) :
      ExecStep s { s with acqPost := s.acqPost - 1 }
  | streamStart (s : ExecSt) :
      ExecStep s { s with streams := s.streams + 1 }
  | streamExit (s : ExecSt) (h : 0 < s.streams) :
      ExecStep s { s with streams := s.streams - 1 }

/-- States reachable from the idle process. -/
def ExecReachable (s : ExecSt) : Prop :=
  Relation.ReflTransGen ExecStep ⟨0, 0, 0, 0⟩ s

/-! # Theorems -/

/-- Dropping a prefix never adds members: anything in the dropWhile
remainder was in the original list. -/
theorem mem_of_mem_dropWhile {α : Type} {p : α → Bool} {l : List α} {x : α}
    (h : x ∈ l.dropWhile p) : x ∈ l :=
  (List.dropWhile_sublist p (l := l)).subset h

/-- The Python strip of a text is empty exactly when every character of
the text is whitespace. -/
theorem pyStrip_eq_nil_iff (cs : List Char) :
    pyStrip cs = [] ↔ ∀ c ∈ cs, isPySpace c := by
  unfold pyStrip
  rw [List.reverse_eq_nil_iff, List.dropWhile_eq_nil_iff]
  constructor
  · intro h c hc
    rcases List.mem_append.mp
        ((List.takeWhile_append_dropWhile (p := isPySpace) (l := cs)) ▸ hc) with h1 | h2
    · exact List.mem_takeWhile_imp h1
    · exact h c (List.mem_reverse.mpr h2)
  · intro h x hx
    exact h x (mem_of_mem_dropWhile (List.mem_reverse.mp hx))

/-- C1: the spec requires that stderr matching both the specific
snapshot-has-holds pattern and the general does-not-exist pattern
resolve to HasHolds.  The code evaluates to NotFound on such an input,
because the does-not-exist rule precedes the snapshot-has-holds rule in
ERROR_PATTERNS and the first match wins; this contradicts the
ordered-by-specificity contract stated both in the spec and in the
comment on the pattern table, so the code, not the claim, is wrong. -/
theorem c1_pattern_order_eval :
    containsSub "does not exist".data
        (lowerL "snapshot s has holds and does not exist".data) = true
    ∧ searchHasHolds (lowerL "snapshot s has holds and does not exist".data) = true
    ∧ (parse_zfs_error "snapshot s has holds and does not exist".data 1).kind
        = ExcClass.notFound
    ∧ ExcClass.notFound ≠ ExcClass.hasHolds := by decide

/-- C6: stderr matching no classifier pattern yields the Generic kind;
an all-whitespace (in particular empty) stderr gives exactly the fixed
placeholder message, any other stderr gives the first line of the
trimmed stderr, and the full stderr text is retained on the returned
error. -/
theorem c6_generic_fallback (stderr : List Char) (rc : Int)
    (h : findMatch (lowerL stderr) = none) :
    (parse_zfs_error stderr rc).kind = ExcClass.generic
    ∧ (pyStrip stderr = [] ↔ ∀ c ∈ stderr, isPySpace c)
    ∧ (pyStrip stderr = [] →
        (parse_zfs_error stderr rc).message = "Unknown ZFS error".data)
    ∧ (pyStrip stderr ≠ [] →
        (parse_zfs_error stderr rc).message = firstLineOf (pyStrip stderr))
    ∧ (parse_zfs_error stderr rc).stderr = stderr := by
  unfold parse_zfs_error
  rw [h]
  refine ⟨rfl, pyStrip_eq_nil_iff _, ?_, ?_, rfl⟩ <;> intro h' <;> simp [h']

theorem c6_generic_fallback_witness :
    findMatch (lowerL "boom\nsecond".data) = none
    ∧ (parse_zfs_error "boom\nsecond".data 2).kind = ExcClass.generic
    ∧ (parse_zfs_error "boom\nsecond".data 2).message = "boom".data := by
  have h : findMatch (lowerL "boom\nsecond".data) = none := by decide
  refine ⟨h, (c6_generic_fallback "boom\nsecond".data 2 h).1, ?_⟩
  have h2 := (c6_generic_fallback "boom\nsecond".data 2 h).2.2.2.1 (by decide)
  rw [h2]; decide

/-- C7: when the executable cannot be found, runCmd does not raise: it
returns a synthetic result with empty stdout, the fixed
binary-colon-command-not-found stderr, and exit code 127. -/
theorem c7_command_not_found (b : String) (rest : List String) :
    runCmd (b :: rest) Spawn.notFound
      = Except.ok ⟨"", b ++ ": command not found", 127⟩ := rfl

/-- C10: the exception class and the message chosen by parse_zfs_error
depend only on the stderr text; two calls with different return codes
agree on class, message and retained stderr and differ only in the
stored returncode field. -/
theorem c10_returncode_independent (stderr : List Char) (rc1 rc2 : Int) :
    (parse_zfs_error stderr rc1).kind = (parse_zfs_error stderr rc2).kind
    ∧ (parse_zfs_error stderr rc1).message = (parse_zfs_error stderr rc2).message
    ∧ (parse_zfs_error stderr rc1).stderr = (parse_zfs_error stderr rc2).stderr
    ∧ (parse_zfs_error stderr rc1).returncode = rc1
    ∧ (parse_zfs_error stderr rc2).returncode = rc2 := by
  unfold parse_zfs_error
  cases h : findMatch (lowerL stderr) <;> simp

/-- C2: the claim says a successful destroy clears all registry state
for the pool.  Evaluating the destroy sequence on a concrete registry
with an immediately successful destructive command shows the pool STAYS
in the being-destroyed set (unmark_pool_destroying exists but is never
called anywhere in the codebase) and the history buffer keeps its
samples; only the WebSocket set and the tracked-process set are
cleared.  The dead removal helper, whose docstring promises that new
connections become allowed again, marks this as a slip in the code
rather than in the spec. -/
theorem c2_registry_state_eval :
    (destroy_pool_route "tank"
        ⟨[], [("tank", [1])], [("tank", [7])], [("tank", [5])]⟩
        [] (fun _ => (none : Option Nat))).1.result = none
    ∧ (destroy_pool_route "tank"
        ⟨[], [("tank", [1])], [("tank", [7])], [("tank", [5])]⟩
        [] (fun _ => (none : Option Nat))).2
      = ⟨["tank"], [], [], [("tank", [5])]⟩
    ∧ get_iostat_history "tank"
        (destroy_pool_route "tank"
          ⟨[], [("tank", [1])], [("tank", [7])], [("tank", [5])]⟩
          [] (fun _ => (none : Option Nat))).2 = [5]
    ∧ ([5] : List Nat) ≠ [] := by decide

/-- C3: the destructive command runs at most 3 times; two failures then
a success yield overall success after exactly 3 invocations; the sleep
before retry attempt i is i times 3 seconds, so the recorded delays are
strictly increasing (3 then 6); three failures propagate the failure of
the last attempt; and the outcome is completely independent of the
outcomes of the preceding cleanup steps. -/
theorem c3_destroy_retries :
    (∀ (ε : Type) (f : Nat → Option ε), (destroyAttemptLoop f).invocations ≤ 3)
    ∧ (∀ (ε : Type) (e1 e2 : ε),
        destroyAttemptLoop
            (fun i => if i = 0 then some e1 else if i = 1 then some e2 else none)
          = ⟨3, [3, 6], none⟩)
    ∧ (∀ (ε : Type) (f : Nat → Option ε),
        (destroyAttemptLoop f).delays
          = ((List.range (destroyAttemptLoop f).invocations).filter (fun i => 0 < i)).map
              (fun i => i * 3))
    ∧ (∀ (ε : Type) (f : Nat → Option ε), List.Chain' (· < ·) (destroyAttemptLoop f).delays)
    ∧ (∀ (ε : Type) (e1 e2 e3 : ε),
        destroyAttemptLoop
            (fun i => if i = 0 then some e1 else if i = 1 then some e2 else some e3)
          = ⟨3, [3, 6], some e3⟩)
    ∧ (∀ (ε : Type) (pool : String) (reg : Registry) (c c' : List (Option ε))
        (f : Nat → Option ε),
        destroy_pool_route pool reg c f = destroy_pool_route pool reg c' f) := by
  refine ⟨?_, ?_, ?_, ?_, ?_, ?_⟩
  · intro ε f
    rcases h0 : f 0 with _ | e0 <;> rcases h1 : f 1 with _ | e1 <;>
      rcases h2 : f 2 with _ | e2 <;>
      simp [destroyAttemptLoop, destroyGo, h0, h1, h2]
  · intro ε e1 e2
    simp [destroyAttemptLoop, destroyGo]
  · intro ε f
    rcases h0 : f 0 with _ | e0 <;> rcases h1 : f 1 with _ | e1 <;>
      rcases h2 : f 2 with _ | e2 <;>
      simp [destroyAttemptLoop, destroyGo, h0, h1, h2] <;> decide
  · intro ε f
    rcases h0 : f 0 with _ | e0 <;> rcases h1 : f 1 with _ | e1 <;>
      rcases h2 : f 2 with _ | e2 <;>
      simp [destroyAttemptLoop, destroyGo, h0, h1, h2]
  · intro ε e1 e2 e3
    simp [destroyAttemptLoop, destroyGo]
  · intro ε pool reg c c' f
    rfl

/-- Dropping down to the last m elements, phrased through reverse and
take. -/
theorem drop_length_sub {α : Type} (m : Nat) (l : List α) :
    l.drop (l.length - m) = (l.reverse.take m).reverse := by
  have h : (l.drop (l.length - m)).reverse = l.reverse.take m := by
    rw [List.reverse_drop, List.take_eq_take]
    simp
    omega
  calc l.drop (l.length - m) = ((l.drop (l.length - m)).reverse).reverse := by simp
    _ = (l.reverse.take m).reverse := by rw [h]

/-- Taking m of a-append-first-m-of-b is taking m of a-append-b. -/
theorem take_append_take {α : Type} (m : Nat) (a b : List α) :
    (a ++ b.take m).take m = (a ++ b).take m := by
  rw [List.take_append_eq_append_take, List.take_append_eq_append_take, List.take_take]
  congr 1
  have h : (m - a.length) ⊓ m = m - a.length := inf_eq_left.mpr (Nat.sub_le m a.length)
  rw [h]

/-- Keeping only the last m elements commutes with later appends. -/
theorem lastN_append {α : Type} (m : Nat) (L s : List α) :
    ((L.drop (L.length - m)) ++ s).drop (((L.drop (L.length - m)) ++ s).length - m)
      = (L ++ s).drop ((L ++ s).length - m) := by
  rw [drop_length_sub m L,
      drop_length_sub m ((L.reverse.take m).reverse ++ s),
      drop_length_sub m (L ++ s),
      List.reverse_append, List.reverse_reverse, List.reverse_append,
      take_append_take]

/-- One deque append, written as a plain suffix. -/
theorem dequeAppend_eq {α : Type} (m : Nat) (l : List α) (x : α) :
    dequeAppend m l x = (l ++ [x]).drop ((l ++ [x]).length - m) := by
  simp only [dequeAppend]
  split
  · rfl
  · next h =>
    simp only [List.length_append, List.length_singleton] at h ⊢
    have h0 : l.length + 1 - m = 0 := by omega
    simp [h0]

/-- Folding deque appends over a sample sequence keeps exactly the last
m samples. -/
theorem foldl_dequeAppend {α : Type} (m : Nat) (samples : List α) :
    ∀ acc : List α, acc.length ≤ m →
      samples.foldl (dequeAppend m) acc
        = (acc ++ samples).drop ((acc ++ samples).length - m) := by
  induction samples with
  | nil =>
    intro acc hacc
    have h0 : acc.length - m = 0 := by omega
    simp [h0]
  | cons x s ih =>
    intro acc hacc
    have hlen : (dequeAppend m acc x).length ≤ m := by
      rw [dequeAppend_eq, List.length_drop]
      omega
    rw [List.foldl_cons, ih (dequeAppend m acc x) hlen, dequeAppend_eq]
    have h := lastN_append m (acc ++ [x]) s
    simpa using h

/-- C8: for any appended sample sequence, the per-pool history buffer
holds exactly the most recent min(n, 300) samples in insertion order —
so it never exceeds 300 entries — and an append to a full buffer evicts
exactly the oldest entry. -/
theorem c8_history_bounded (α : Type) (samples : List α) :
    historyAfter samples = samples.drop (samples.length - MAX_HISTORY)
    ∧ (historyAfter samples).length = min samples.length MAX_HISTORY
    ∧ (historyAfter samples).length ≤ MAX_HISTORY
    ∧ (∀ (buf : List α) (x : α), buf.length = MAX_HISTORY →
        dequeAppend MAX_HISTORY buf x = buf.tail ++ [x]) := by
  have hmain : historyAfter samples = samples.drop (samples.length - MAX_HISTORY) := by
    have := foldl_dequeAppend MAX_HISTORY samples [] (by simp)
    simpa [historyAfter] using this
  refine ⟨hmain, ?_, ?_, ?_⟩
  · rw [hmain, List.length_drop]; omega
  · rw [hmain, List.length_drop]; omega
  · intro buf x hbuf
    rw [dequeAppend_eq]
    have h1 : (buf ++ [x]).length - MAX_HISTORY = 1 := by simp [hbuf, MAX_HISTORY]
    have h2 : 1 ≤ buf.length := by rw [hbuf]; decide
    rw [h1, List.drop_append_of_le_length h2, List.drop_one]

theorem c8_history_bounded_witness :
    historyAfter [10, 20] = [10, 20]
    ∧ dequeAppend MAX_HISTORY (List.replicate MAX_HISTORY 0) 7
        = (List.replicate MAX_HISTORY 0).tail ++ [7] := by
  have h := c8_history_bounded Nat [10, 20]
  refine ⟨by rw [h.1]; decide, h.2.2.2 (List.replicate MAX_HISTORY 0) 7 (by simp)⟩

/-- C9: in every reachable state of the command layer, at most 4
subprocesses launched through runCmd are running simultaneously (in
fact at most 4 semaphore slots are held across all of runCmd), while a
streaming subprocess can always start, whatever the semaphore state —
streams never acquire a slot and are not counted against the cap. -/
theorem c9_semaphore_cap (s : ExecSt) (h : ExecReachable s) :
    s.running ≤ 4
    ∧ s.acqPre + s.running + s.acqPost ≤ 4
    ∧ ExecStep s { s with streams := s.streams + 1 } := by
  have key : s.acqPre + s.running + s.acqPost ≤ 4 := by
    induction h with
    | refl => simp
    | tail _ st ih => cases st <;> simp_all <;> omega
  exact ⟨by omega, key, ExecStep.streamStart s⟩

theorem c9_semaphore_cap_witness :
    (⟨1, 0, 0, 1⟩ : ExecSt).running ≤ 4
    ∧ (⟨1, 0, 0, 1⟩ : ExecSt).acqPre + (⟨1, 0, 0, 1⟩ : ExecSt).running
        + (⟨1, 0, 0, 1⟩ : ExecSt).acqPost ≤ 4
    ∧ ExecStep ⟨1, 0, 0, 1⟩ ⟨1, 0, 0, 2⟩ := by
  have h1 : ExecStep ⟨0, 0, 0, 0⟩ ⟨1, 0, 0, 0⟩ := ExecStep.acquire ⟨0, 0, 0, 0⟩ (by decide)
  have h2 : ExecStep ⟨1, 0, 0, 0⟩ ⟨1, 0, 0, 1⟩ := ExecStep.streamStart ⟨1, 0, 0, 0⟩
  have hreach : ExecReachable ⟨1, 0, 0, 1⟩ :=
    Relation.ReflTransGen.tail (Relation.ReflTransGen.single h1) h2
  exact c9_semaphore_cap ⟨1, 0, 0, 1⟩ hreach

/-- Collapsing a run is a left fold: absorbing one entry then folding
the rest. -/
theorem collapseRun_cons (d p : Device) (l : List Device) :
    collapseRun d (p :: l) = collapseRun { p with children := p.children ++ [d] } l := rfl

/-- The pop loop of the source parser computes exactly the span-style
description: collapse the run of entries with indentation at least the
incoming one, attach it below the run or to the top level. -/
theorem popGe_spec (indent : Nat) :
    ∀ (n : Nat) (stack : List (Nat × Device)), stack.length ≤ n →
      ∀ acc, popGe indent stack acc = popSpec indent stack acc := by
  intro n
  induction n with
  | zero =>
    intro stack h acc
    have h0 : stack = [] := List.length_eq_zero.mp (Nat.le_zero.mp h)
    subst h0
    simp [popGe, popSpec]
  | succ n ih =>
    intro stack h acc
    match stack with
    | [] => simp [popGe, popSpec]
    | (j, d) :: rest =>
      by_cases hij : indent ≤ j
      · match rest with
        | [] =>
          rw [popGe.eq_def]
          simp [hij, popSpec, List.takeWhile_cons, List.dropWhile_cons, collapseRun]
          rw [popGe.eq_def]
        | (k, p) :: r2 =>
          have hlen : ((k, { p with children := p.children ++ [d] }) :: r2).length ≤ n := by
            simp at h ⊢
            omega
          have hstep : popGe indent ((j, d) :: (k, p) :: r2) acc
              = popGe indent ((k, { p with children := p.children ++ [d] }) :: r2) acc := by
            rw [popGe.eq_def]
            simp [hij]
          rw [hstep, ih _ hlen acc]
          by_cases hik : indent ≤ k
          · cases hdw : List.dropWhile (fun e => decide (indent ≤ e.1)) r2 with
            | nil => simp [popSpec, List.takeWhile_cons, List.dropWhile_cons, hij, hik, hdw,
                collapseRun_cons]
            | cons e tl => simp [popSpec, List.takeWhile_cons, List.dropWhile_cons, hij, hik, hdw,
                collapseRun_cons]
          · simp [popSpec, List.takeWhile_cons, List.dropWhile_cons, hij, hik, collapseRun]
      · rw [popGe.eq_def]
        simp [popSpec, List.takeWhile_cons, List.dropWhile_cons, hij]

/-- The per-line step of the source parser and the claim-side step
agree. -/
theorem configStep_eq_claim : configStep = configClaimStep := by
  funext st line
  unfold configStep configClaimStep
  rw [popGe_spec (lineIndent line) st.1.length st.1 le_rfl st.2]
  cases htw : List.takeWhile (fun e => decide (lineIndent line ≤ e.1)) st.1 with
  | nil =>
    cases hst : st.1 with
    | nil => simp [popSpec, htw, hst]
    | cons hd tl =>
      obtain ⟨j, d⟩ := hd
      rw [hst] at htw
      by_cases hij : lineIndent line ≤ j
      · simp [List.takeWhile_cons, hij] at htw
      · simp [popSpec, htw, hst, List.dropWhile_cons, hij]
  | cons p ps =>
    cases hdw : List.dropWhile (fun e => decide (lineIndent line ≤ e.1)) st.1 with
    | nil => simp [popSpec, htw, hdw]
    | cons kq kr =>
      obtain ⟨k, q⟩ := kq
      simp [popSpec, htw, hdw]

/-- At indentation zero every stack entry pops: the flush collapses the
whole remaining spine into the top-level list. -/
theorem popSpec_zero (s : List (Nat × Device) × List Device) :
    (popSpec 0 s.1 s.2).2
      = (match s.1 with
         | [] => s.2
         | p :: ps => s.2 ++ [collapseRun p.2 (ps.map (·.2))]) := by
  cases h1 : s.1 with
  | nil => simp [popSpec, h1]
  | cons p ps =>
    have htw : List.takeWhile (fun e => decide ((0:Nat) ≤ e.1)) (p :: ps) = p :: ps := by
      rw [List.takeWhile_eq_self_iff]
      intro a _
      simp
    have hdw : List.dropWhile (fun e => decide ((0:Nat) ≤ e.1)) (p :: ps) = [] := by
      rw [List.dropWhile_eq_nil_iff]
      intro a _
      simp
    unfold popSpec
    rw [htw, hdw]

/-- The source parser coincides with the claim-side transcription. -/
theorem parse_config_eq_claim (lines : List (List Char)) :
    parse_config_lines lines = configClaimParse lines := by
  unfold parse_config_lines configClaimParse
  rw [configStep_eq_claim]
  have key : ∀ (s : List (Nat × Device) × List Device),
      (popGe 0 s.1 s.2).2
        = (match s.1 with
           | [] => s.2
           | p :: ps => s.2 ++ [collapseRun p.2 (ps.map (·.2))]) := by
    intro s
    rw [popGe_spec 0 s.1.length s.1 le_rfl s.2]
    exact popSpec_zero s
  exact key _

/-- C4 counterexample: the claim says missing trailing fields default to
the string zero, but on a line carrying only a name (the logs group
header of the fixture in the parser docstring) the code defaults the
state field to the empty string, not to zero; only the three error
counters default to zero. -/
theorem c4_counterexample :
    parse_config_lines ["logs".data]
      = [{ name := "logs", state := "", read_errors := "0", write_errors := "0",
           checksum_errors := "0", children := [] }]
    ∧ ("" : String) ≠ "0" := by
  constructor
  · rw [parse_config_eq_claim]
    rfl
  · decide

/-- C4 amended: the device-tree parser splits each non-blank,
non-header line into whitespace-delimited fields mapped positionally to
name, state and the three error counters, where a missing state
defaults to the empty string and missing error counters default to the
string zero; it attaches the node to the most recent stack node whose
indentation is strictly less than that of the line after popping
entries with indentation at least that of the line, makes empty-stack
lines top-level siblings; and every emitted node carries a children
list by construction.  Stated as: the source parser coincides with the
claim-side transcription on every input. -/
theorem c4_config_parser_amended (lines : List (List Char)) :
    parse_config_lines lines = configClaimParse lines :=
  parse_config_eq_claim lines

/-- C5: while the parser is in one of the narrative sections (status,
action, scan, errors), every non-empty line that is not recognized as a
header (and so starts no new section and is not the discarded pool
header) is a continuation: its trimmed text is appended to the field of
the current section preceded by a single space, and nothing else in the
parser state changes; and parsing empty input yields empty-string
values for every field and an empty device tree. -/
theorem c5_status_continuation :
    (∀ (st : StatusAcc) (line : List Char),
        (st.sect = Sect.statusSec ∨ st.sect = Sect.actionSec ∨ st.sect = Sect.scanSec
          ∨ st.sect = Sect.errorsSec) →
        pyStrip line ≠ [] →
        isHeaderLine line = false →
        statusStep st line = appendCont st line)
    ∧ parse_status_output [] = ⟨[], [], [], [], [], []⟩ := by
  constructor
  · intro st line hsect hstrip hhdr
    simp only [isHeaderLine, Bool.or_eq_false_iff] at hhdr
    rcases hsect with h | h | h | h <;>
      simp [statusStep, appendCont, h, hhdr, hstrip]
  · have hcfg : parse_config_lines [] = [] := by
      rw [parse_config_eq_claim]
      rfl
    have h0 : parse_status_output [] = ⟨[], [], [], [], [], parse_config_lines []⟩ := rfl
    rw [h0, hcfg]

theorem c5_status_continuation_witness :
    pyStrip " more text".data ≠ []
    ∧ isHeaderLine " more text".data = false
    ∧ statusStep ⟨"s".data, "t".data, "a".data, "c".data, "e".data, Sect.statusSec, []⟩
        " more text".data
      = appendCont ⟨"s".data, "t".data, "a".data, "c".data, "e".data, Sect.statusSec, []⟩
        " more text".data := by
  refine ⟨by decide, by decide, ?_⟩
  exact c5_status_continuation.1 _ _ (Or.inl rfl) (by decide) (by decide)

end ZfsWeb
